import Mathlib

/-
Verification of the range-subdivision, query-building and JSON-flattening logic of
the OMSapi repository (src/oms/__init__.py and src/oms/oms_utils.py), as a shallow
embedding in Lean 4. Python integers are modelled as Int, Python lists as List,
Python dicts as ordered association lists, and fallible code returns Except.
-/

/-- Python error kinds raised by the embedded code. Message payloads are elided:
only the kind of error is observable in the properties below. -/
inductive PyError where
  | typeError
  | indexError
  | attributeError
  | unboundLocalError
  | exception
  deriving DecidableEq

/-- Bounded evaluator for the Python expression range(a, b, step) with a positive
step: the integers a, a + step, a + 2*step, ... while strictly below b. The fuel
argument makes the recursion structural; pyRange below supplies enough fuel.
A nonpositive step never occurs in the program (the steps used are the positive
range limits 5000 and 1000) and yields the empty list here. -/
def pyRangeAux (step : Int) : Nat → Int → Int → List Int
  | 0, _, _ => []
  | fuel + 1, a, b => if 0 < step ∧ a < b then a :: pyRangeAux step fuel (a + step) b else []

/-- Python range(a, b, step) for a positive step. -/
def pyRange (a b step : Int) : List Int :=
  pyRangeAux step (b - a).toNat a b

/-- Embeds subdivide_range(oldest_run, newest_run, step) of src/oms/oms_utils.py
(lines 93-113); the body defined inside class oms_fetch in src/oms/__init__.py
(lines 194-214) is identical. For each start produced by range(oldest_run,
newest_run, step) the loop appends (start, newest_run) when start + step exceeds
newest_run and (start, start + step - 1) otherwise. The source gives step the
default 1000; callers here always pass it explicitly. -/
def subdivide_range (oldest_run newest_run step : Int) : List (Int × Int) :=
  (pyRange oldest_run newest_run step).map (fun start =>
    if start + step > newest_run then (start, newest_run) else (start, start + step - 1))

lemma pyRangeAux_congr (step : Int) :
    ∀ f1 f2 a b, (b - a).toNat ≤ f1 → (b - a).toNat ≤ f2 →
      pyRangeAux step f1 a b = pyRangeAux step f2 a b := by
  intro f1
  induction f1 with
  | zero =>
    intro f2 a b h1 h2
    have hab : ¬ a < b := by omega
    cases f2 with
    | zero => rfl
    | succ g => simp [pyRangeAux, hab]
  | succ f ih =>
    intro f2 a b h1 h2
    cases f2 with
    | zero =>
      have hab : ¬ a < b := by omega
      simp [pyRangeAux, hab]
    | succ g =>
      by_cases hc : 0 < step ∧ a < b
      · simp only [pyRangeAux, if_pos hc]
        have := ih g (a + step) b (by omega) (by omega)
        rw [this]
      · simp only [pyRangeAux, if_neg hc]

lemma pyRange_cons (a b step : Int) (hs : 0 < step) (hab : a < b) :
    pyRange a b step = a :: pyRange (a + step) b step := by
  unfold pyRange
  have h1 : (b - a).toNat = ((b - a).toNat - 1) + 1 := by omega
  rw [h1]
  simp only [pyRangeAux, if_pos (And.intro hs hab)]
  have := pyRangeAux_congr step ((b - a).toNat - 1) ((b - (a + step)).toNat) (a + step) b
    (by omega) (by omega)
  rw [this]

lemma pyRange_nil (a b step : Int) (h : ¬ (0 < step ∧ a < b)) : pyRange a b step = [] := by
  unfold pyRange
  cases hf : (b - a).toNat with
  | zero => rfl
  | succ m => simp [pyRangeAux, h]

lemma subdivide_cons (s e step : Int) (hs : 0 < step) (hse : s < e) :
    subdivide_range s e step =
      (if s + step > e then (s, e) else (s, s + step - 1)) :: subdivide_range (s + step) e step := by
  unfold subdivide_range
  rw [pyRange_cons s e step hs hse, List.map_cons]

lemma subdivide_nil (s e step : Int) (h : ¬ (0 < step ∧ s < e)) :
    subdivide_range s e step = [] := by
  unfold subdivide_range
  rw [pyRange_nil s e step h]
  rfl

lemma dvd_shift (step s e : Int) : step ∣ (e - s) ↔ step ∣ (e - (s + step)) := by
  constructor
  · intro h
    have he : e - (s + step) = (e - s) - step := by ring
    rw [he]
    exact dvd_sub h dvd_rfl
  · intro h
    have he : e - s = (e - (s + step)) + step := by ring
    rw [he]
    exact dvd_add h dvd_rfl

lemma subdivide_main (step : Int) (hs : 0 < step) (s e : Int) (hse : s < e) :
    (∀ p ∈ subdivide_range s e step, s ≤ p.1 ∧ p.1 ≤ p.2 ∧ p.2 ≤ e) ∧
    List.Chain' (fun p q : Int × Int => q.1 = p.2 + 1) (subdivide_range s e step) ∧
    List.Pairwise (fun p q : Int × Int => p.2 < q.1) (subdivide_range s e step) ∧
    (subdivide_range s e step).getLast?.map Prod.snd =
      some (if step ∣ (e - s) then e - 1 else e) ∧
    (∀ x : Int, (∃ p ∈ subdivide_range s e step, p.1 ≤ x ∧ x ≤ p.2) ↔
      (s ≤ x ∧ x ≤ (if step ∣ (e - s) then e - 1 else e))) := by
  rcases lt_trichotomy e (s + step) with hA | hB | hC
  · -- last-iteration case: start + step exceeds e, one clamped segment (s, e)
    have hnil : subdivide_range (s + step) e step = [] :=
      subdivide_nil _ _ _ (by omega)
    have hnd : ¬ step ∣ (e - s) := by
      intro hd
      have := Int.le_of_dvd (by omega) hd
      omega
    rw [subdivide_cons s e step hs hse, if_pos (by omega), hnil]
    simp only [if_neg hnd]
    refine ⟨?_, List.chain'_singleton _, List.pairwise_singleton _ _, by simp, ?_⟩
    · intro p hp
      rw [List.mem_singleton] at hp
      subst hp
      exact ⟨le_rfl, le_of_lt hse, le_rfl⟩
    · intro x
      simp only [List.mem_singleton, exists_eq_left]
  · -- exact-fit case: e = s + step, one segment (s, s + step - 1) and e is dropped
    have hnil : subdivide_range (s + step) e step = [] :=
      subdivide_nil _ _ _ (by omega)
    have hd : step ∣ (e - s) := by
      rw [show e - s = step by omega]
    rw [subdivide_cons s e step hs hse, if_neg (by omega), hnil]
    simp only [if_pos hd]
    refine ⟨?_, List.chain'_singleton _, List.pairwise_singleton _ _, ?_, ?_⟩
    · intro p hp
      rw [List.mem_singleton] at hp
      subst hp
      exact ⟨le_rfl, by omega, by omega⟩
    · simp only [List.getLast?_singleton, Option.map_some', Option.some.injEq]
      omega
    · intro x
      simp only [List.mem_singleton, exists_eq_left]
      constructor
      · intro hx
        have h1 : s ≤ x := hx.1
        have h2 : x ≤ s + step - 1 := hx.2
        exact ⟨h1, by omega⟩
      · intro hx
        exact ⟨hx.1, by omega⟩
  · -- general case: an unclamped head (s, s + step - 1) followed by the tail from s + step
    obtain ⟨IHb, IHc, IHp, IHl, IHcov⟩ := subdivide_main step hs (s + step) e (by omega)
    have hcons : subdivide_range s e step =
        (s, s + step - 1) :: subdivide_range (s + step) e step := by
      rw [subdivide_cons s e step hs hse, if_neg (by omega)]
    have htail : subdivide_range (s + step) e step =
        (if s + step + step > e then (s + step, e) else (s + step, s + step + step - 1)) ::
          subdivide_range (s + step + step) e step :=
      subdivide_cons (s + step) e step hs (by omega)
    have hdvd := dvd_shift step s e
    have hLL : (if step ∣ (e - (s + step)) then e - 1 else e) =
        (if step ∣ (e - s) then e - 1 else e) := if_congr hdvd.symm rfl rfl
    have hL : (if step ∣ (e - s) then e - 1 else e) = e - 1 ∨
        (if step ∣ (e - s) then e - 1 else e) = e := by
      split
      · exact Or.inl rfl
      · exact Or.inr rfl
    rw [hcons]
    refine ⟨?_, ?_, ?_, ?_, ?_⟩
    · intro p hp
      rcases List.mem_cons.mp hp with heq | hp2
      · subst heq
        exact ⟨le_rfl, by omega, by omega⟩
      · obtain ⟨h1, h2, h3⟩ := IHb p hp2
        exact ⟨by omega, h2, h3⟩
    · rw [List.chain'_cons']
      refine ⟨?_, IHc⟩
      intro q hq
      rw [htail] at hq
      simp only [List.head?_cons, Option.mem_def, Option.some.injEq] at hq
      subst hq
      by_cases hc2 : s + step + step > e
      · rw [if_pos hc2]
        show s + step = s + step - 1 + 1
        omega
      · rw [if_neg hc2]
        show s + step = s + step - 1 + 1
        omega
    · rw [List.pairwise_cons]
      refine ⟨?_, IHp⟩
      intro q hq
      obtain ⟨h1, _, _⟩ := IHb q hq
      show s + step - 1 < q.1
      omega
    · rw [htail, List.getLast?_cons_cons, ← htail, IHl]
      exact congrArg some hLL
    · intro x
      have hxt := IHcov x
      rw [hLL] at hxt
      constructor
      · rintro ⟨p, hp, hx1, hx2⟩
        rcases List.mem_cons.mp hp with heq | hp2
        · subst heq
          have h1 : s ≤ x := hx1
          have h2 : x ≤ s + step - 1 := hx2
          rcases hL with h | h <;> rw [h] <;> exact ⟨h1, by omega⟩
        · have h3 := hxt.mp ⟨p, hp2, hx1, hx2⟩
          exact ⟨by omega, h3.2⟩
      · intro hx
        by_cases hsp : x ≤ s + step - 1
        · exact ⟨(s, s + step - 1), List.mem_cons_self _ _, hx.1, hsp⟩
        · have h4 : s + step ≤ x ∧ x ≤ (if step ∣ (e - s) then e - 1 else e) :=
            ⟨by omega, hx.2⟩
          obtain ⟨p, hp, h1, h2⟩ := hxt.mpr h4
          exact ⟨p, List.mem_cons_of_mem _ hp, h1, h2⟩
termination_by (e - s).toNat
decreasing_by omega

/-- The partition properties that hold of subdivide_range on a range strictly wider
than the step: sub-ranges are nonempty closed intervals, the first starts at s,
adjacent sub-ranges are contiguous (next lower bound = previous upper bound + 1),
they are in ascending order and pairwise non-overlapping, and the union is exactly
the interval from s up to e (when step does not divide e - s) or up to e - 1 (when
step divides e - s, in which case e itself is not covered). -/
def PartitionSpec (s e step : Int) : Prop :=
  subdivide_range s e step ≠ [] ∧
  (subdivide_range s e step).head? = some (s, s + step - 1) ∧
  (∀ p ∈ subdivide_range s e step, p.1 ≤ p.2) ∧
  List.Chain' (fun p q : Int × Int => q.1 = p.2 + 1) (subdivide_range s e step) ∧
  List.Pairwise (fun p q : Int × Int => p.2 < q.1) (subdivide_range s e step) ∧
  (subdivide_range s e step).getLast?.map Prod.snd =
    some (if step ∣ (e - s) then e - 1 else e) ∧
  ∀ x : Int, (∃ p ∈ subdivide_range s e step, p.1 ≤ x ∧ x ≤ p.2) ↔
    s ≤ x ∧ x ≤ (if step ∣ (e - s) then e - 1 else e)

/-- C1 (amended): for every range (s, e) with e - s > step and every positive step,
the sub-ranges of subdivide_range s e step are contiguous closed intervals in
ascending order and pairwise non-overlapping; their union covers [s, e] exactly
when step does not divide e - s, and covers [s, e - 1] (omitting the endpoint e,
the last upper bound being e - 1) when step divides e - s. -/
theorem subdivide_range_partition (s e step : Int) (hs : 0 < step) (hgt : step < e - s) :
    PartitionSpec s e step := by
  have hse : s < e := by omega
  obtain ⟨hb, hc, hp, hl, hcov⟩ := subdivide_main step hs s e hse
  refine ⟨?_, ?_, ?_, hc, hp, hl, hcov⟩
  · rw [subdivide_cons s e step hs hse]
    exact List.cons_ne_nil _ _
  · rw [subdivide_cons s e step hs hse, if_neg (by omega)]
    rfl
  · intro p hp2
    exact (hb p hp2).2.1

theorem subdivide_range_partition_witness :
    (0 : Int) < 1000 ∧ (1000 : Int) < 2500 - 0 ∧ PartitionSpec 0 2500 1000 :=
  ⟨by decide, by decide, subdivide_range_partition 0 2500 1000 (by decide) (by decide)⟩

/-- C1 counterexample: at s = 0, e = 2000, step = 1000 the hypotheses of the claim
hold (positive step, e - s > step), yet the emitted sub-ranges are
[(0, 999), (1000, 1999)]: no sub-range contains 2000, so the union does not cover
[0, 2000] and the last upper bound is 1999, not e. -/
theorem subdivide_range_cover_cex :
    (0 : Int) < 1000 ∧ (1000 : Int) < 2000 - 0 ∧
    subdivide_range 0 2000 1000 = [(0, 999), (1000, 1999)] ∧
    ¬ (∃ p ∈ subdivide_range 0 2000 1000, p.1 ≤ 2000 ∧ (2000 : Int) ≤ p.2) := by
  decide

/-- C9: subdivide_range applied to start 0, end 2500, step 1000 returns exactly
the list [(0, 999), (1000, 1999), (2000, 2500)]. -/
theorem subdivide_range_example :
    subdivide_range 0 2500 1000 = [(0, 999), (1000, 1999), (2000, 2500)] := by
  decide

/-- A Python dict with string keys and string values, as an ordered association
list (Python dicts preserve insertion order). Filters in this program are such
dicts. -/
abbrev PyDict := List (String × String)

/-- Modelled from the spec: the module src/oms/get_oms_data.py is imported by both
source files but is not under src/. It exports the filter-key constants
attribute_name, value and operator used by get_oms_json (spec: each filter must
carry exactly the three recognized keys, name, value and operator, the names under
which the remote service expects the attribute name, the compared value and the
comparison operator). Each constant holds the corresponding key string. -/
def attribute_name : String := "attribute_name"

/-- Modelled from the spec: the value key constant of get_oms_data.py, see
attribute_name. -/
def value : String := "value"

/-- Modelled from the spec: the operator key constant of get_oms_data.py, see
attribute_name. -/
def operator : String := "operator"

/-- Character-list comparison backing strLt: lexicographic by code point. -/
def charListLt : List Char → List Char → Bool
  | [], [] => false
  | [], _ :: _ => true
  | _ :: _, [] => false
  | c :: cs, d :: ds =>
      if c.val < d.val then true
      else if d.val < c.val then false
      else charListLt cs ds

/-- Lexicographic string comparison (the order Python sorted uses on str). -/
def strLt (a b : String) : Bool := charListLt a.data b.data

def insertSorted (x : String) : List String → List String
  | [] => [x]
  | y :: ys => if strLt x y then x :: y :: ys else y :: insertSorted x ys

/-- Python sorted() on a list of strings: insertion sort, ascending. -/
def sortKeys (l : List String) : List String := l.foldr insertSorted []

/-- expected_keys = sorted([attribute_name, value, operator]) in get_oms_json. -/
def expected_keys : List String := sortKeys [attribute_name, value, operator]

/-- The warning printed for a filter whose keys differ from expected_keys; the
printed text interpolates the filter, modelled here by listing its keys. -/
def warnFilterMsg (f : PyDict) : String :=
  String.intercalate " "
    (["WARNING in get_oms_data.py/get_oms_data: filter with keys"] ++ f.map Prod.fst
      ++ ["contains unexpected keys. The filter will be added but the query might fail..."])

/-- True exactly when get_oms_json warns about the filter: its sorted key list
differs from expected_keys. -/
def malformedFilter (f : PyDict) : Bool :=
  decide (¬ sortKeys (f.map Prod.fst) = expected_keys)

/-- The runnb argument of get_oms_json: None, an int, a tuple or list of two run
numbers, or anything else (which only draws a warning). -/
inductive RunArg where
  | none
  | int (n : Int)
  | pair (a b : Int)
  | other
  deriving DecidableEq

/-- The run-number filters get_oms_json appends to the initially empty filter
list, one branch per shape of runnb (src/oms/__init__.py lines 144-166):
nothing for None, one EQ filter for an int, a GE filter then an LE filter for a
tuple or list, nothing (only a warning) for an unrecognized argument. -/
def rangeFilters : RunArg → List PyDict
  | .none => []
  | .int n => [[(attribute_name, "run_number"), (value, toString n), (operator, "EQ")]]
  | .pair a b =>
      [[(attribute_name, "run_number"), (value, toString a), (operator, "GE")],
       [(attribute_name, "run_number"), (value, toString b), (operator, "LE")]]
  | .other => []

/-- The warning printed by the unrecognized-runnb branch of get_oms_json. -/
def runArgWarnings : RunArg → List String
  | .other => ["WARNING in get_oms_data.py/get_oms_data: run number not recognized"]
  | _ => []

/-- The for-loop over extrafilters in get_oms_json (src/oms/__init__.py lines
167-178), in accumulator style: every filter is appended to the filter list
unconditionally; a filter whose sorted keys differ from expected_keys first
prints one warning. -/
def filterLoop : List PyDict → List String → List PyDict → List PyDict × List String
  | filters, warns, [] => (filters, warns)
  | filters, warns, f :: rest =>
      let warns2 := if sortKeys (f.map Prod.fst) = expected_keys then warns
        else warns ++ [warnFilterMsg f]
      filterLoop (filters ++ [f]) warns2 rest

/-- The query assembled by get_oms_json and handed to the external client:
endpoint, filter list (q.filters, applied when nonempty; an empty field here
means it was not applied), optional sort attribute, projected attributes
(q.attrs is always applied because len(attributes) is never None), custom
key-value arguments, and the single pagination page (1, limit_entries). -/
structure OmsQuery where
  endpoint : String
  filters : List PyDict
  sort : Option String
  attrs : List String
  extraargs : List (String × String)
  page : Nat × Nat
  deriving DecidableEq

/-- Embeds oms_fetch.get_oms_json (src/oms/__init__.py lines 103-192). The
isinstance check on self.omsapi is the omsapi_ok flag: when it fails the method
raises. Otherwise the filter list is built from runnb and the extrafilters loop,
and the assembled query is dispatched; the dispatch and response.json() are
abstracted by the caller, so the result here is the query together with the list
of warnings printed. The print of q.data_query() is a trace without effect. -/
def get_oms_json (omsapi_ok : Bool) (api_endpoint : String) (runnb : RunArg)
    (extrafilters : List PyDict) (extraargs : List (String × String))
    (sort : Option String) (attributes : List String) (limit_entries : Nat) :
    Except PyError (OmsQuery × List String) :=
  if omsapi_ok then
    let fw := filterLoop (rangeFilters runnb) (runArgWarnings runnb) extrafilters
    .ok ({ endpoint := api_endpoint, filters := fw.1, sort := sort,
           attrs := attributes, extraargs := extraargs, page := (1, limit_entries) }, fw.2)
  else
    .error .exception

lemma filterLoop_spec (efs : List PyDict) :
    ∀ filters warns, filterLoop filters warns efs =
      (filters ++ efs, warns ++ (efs.filter malformedFilter).map warnFilterMsg) := by
  induction efs with
  | nil => intro filters warns; simp [filterLoop]
  | cons f rest ih =>
    intro filters warns
    by_cases h : sortKeys (f.map Prod.fst) = expected_keys
    · have hm : malformedFilter f = false := by simp [malformedFilter, h]
      simp only [filterLoop, if_pos h, ih, List.filter_cons, hm]
      simp
    · have hm : malformedFilter f = true := by simp [malformedFilter, h]
      simp only [filterLoop, if_neg h, ih, List.filter_cons, hm]
      simp

lemma get_oms_json_ok (ep : String) (runnb : RunArg) (efs : List PyDict)
    (ea : List (String × String)) (so : Option String) (atts : List String) (lim : Nat) :
    get_oms_json true ep runnb efs ea so atts lim =
      .ok ({ endpoint := ep, filters := rangeFilters runnb ++ efs, sort := so,
             attrs := atts, extraargs := ea, page := (1, lim) },
           runArgWarnings runnb ++ (efs.filter malformedFilter).map warnFilterMsg) := by
  simp [get_oms_json, filterLoop_spec]

/-- The filter list of a successfully built query. -/
def queryFiltersOf (r : Except PyError (OmsQuery × List String)) : Option (List PyDict) :=
  match r with
  | .ok (q, _) => some q.filters
  | .error _ => none

/-- C5: the run-number argument of get_oms_json translates to filters as follows,
for every endpoint, extra-filter list, extra arguments, sort and attribute
configuration: None adds no run-number filter; an int n adds exactly the one
filter (run_number, EQ, str n); a pair (lo, hi) adds exactly (run_number, GE,
str lo) then (run_number, LE, str hi) in that order; and the range-derived
filters precede the caller-supplied extrafilters. -/
theorem get_oms_json_run_filters (ep : String) (efs : List PyDict)
    (ea : List (String × String)) (so : Option String) (atts : List String) (lim : Nat)
    (n lo hi : Int) :
    queryFiltersOf (get_oms_json true ep .none efs ea so atts lim) = some efs ∧
    queryFiltersOf (get_oms_json true ep (.int n) efs ea so atts lim) =
      some ([[(attribute_name, "run_number"), (value, toString n), (operator, "EQ")]] ++ efs) ∧
    queryFiltersOf (get_oms_json true ep (.pair lo hi) efs ea so atts lim) =
      some ([[(attribute_name, "run_number"), (value, toString lo), (operator, "GE")],
             [(attribute_name, "run_number"), (value, toString hi), (operator, "LE")]] ++ efs) := by
  refine ⟨?_, ?_, ?_⟩ <;> rw [get_oms_json_ok] <;> rfl

/-- C7: for every caller-supplied filter list, get_oms_json appends every
extrafilter unchanged to the forwarded filter list (after the range-derived
filters), produces exactly one diagnostic warning per filter whose key set
differs from the three recognized keys, and returns without raising. -/
theorem get_oms_json_malformed_filters (ep : String) (runnb : RunArg) (efs : List PyDict)
    (ea : List (String × String)) (so : Option String) (atts : List String) (lim : Nat) :
    ∃ q warns, get_oms_json true ep runnb efs ea so atts lim = .ok (q, warns) ∧
      q.filters = rangeFilters runnb ++ efs ∧
      warns = runArgWarnings runnb ++ (efs.filter malformedFilter).map warnFilterMsg ∧
      warns.length = (runArgWarnings runnb).length + (efs.filter malformedFilter).length := by
  refine ⟨_, _, get_oms_json_ok ep runnb efs ea so atts lim, rfl, rfl, ?_⟩
  simp

/-- A Python scalar value as it appears in OMS attribute mappings. -/
inductive PyVal where
  | int (n : Int)
  | str (s : String)
  | bool (b : Bool)
  | null
  deriving DecidableEq

/-- The parsed response structure returned by response.json(): a dict whose data
field is a list of records; each record carries an attributes dict, modelled as
an ordered association list (the only part of a record this program reads). -/
structure OmsJson where
  data : List (List (String × PyVal))
  deriving DecidableEq

/-- A pandas DataFrame as this program observes it: a row index, named columns,
and rows of values. -/
structure Table where
  index : List Int
  columns : List String
  rows : List (List PyVal)
  deriving DecidableEq

/-- pd.DataFrame(datasetlist, columns=keys): default RangeIndex 0..n-1, the given
columns and rows. The program only ever constructs frames whose rows all have
exactly one value per column; a width mismatch is a pandas error, modelled as
exception. -/
def pdDataFrame (datasetlist : List (List PyVal)) (columns : List String) :
    Except PyError Table :=
  if datasetlist.all (fun r => r.length = columns.length) then
    .ok ⟨(List.range datasetlist.length).map Int.ofNat, columns, datasetlist⟩
  else .error .exception

/-- Embeds makeDF of src/oms/oms_utils.py (lines 116-126). The key list is read
from the attributes of the first record, so an empty data list raises IndexError
at json[\x22data\x22][0]; otherwise one row of values per record is collected in
response order and a DataFrame is built with the first record keys as columns. -/
def makeDF (json : OmsJson) : Except PyError Table :=
  match json.data with
  | [] => .error .indexError
  | first :: _ =>
      pdDataFrame (json.data.map (fun r => r.map Prod.snd)) (first.map Prod.fst)

/-- DataFrame.convert_dtypes(): converts column dtypes; the values this program
observes are unchanged. -/
def convert_dtypes (t : Table) : Table := t

/-- df.reset_index(inplace=True): the current index becomes a leading column
named index and is replaced by a fresh RangeIndex. -/
def reset_index (t : Table) : Table :=
  ⟨(List.range t.rows.length).map Int.ofNat,
   "index" :: t.columns,
   (t.index.zip t.rows).map (fun p => PyVal.int p.1 :: p.2)⟩

/-- C3 counterexample: flattening a response whose record list is empty raises
IndexError rather than returning a zero-row table. -/
theorem makeDF_empty_cex :
    makeDF ⟨[]⟩ = .error .indexError ∧ ¬ ∃ t, makeDF ⟨[]⟩ = .ok t := by
  refine ⟨rfl, ?_⟩
  rintro ⟨t, ht⟩
  simp [makeDF] at ht

/-- C3 (amended): flattening a response whose record list is empty raises an
IndexError when reading the first record, and never returns a table, regardless
of any attribute configuration (makeDF receives no attribute argument at all). -/
theorem makeDF_empty (json : OmsJson) (h : json.data = []) :
    makeDF json = .error .indexError ∧ ∀ t, makeDF json ≠ .ok t := by
  obtain ⟨d⟩ := json
  subst h
  exact ⟨rfl, fun t ht => by simp [makeDF] at ht⟩

theorem makeDF_empty_witness :
    (⟨[]⟩ : OmsJson).data = [] ∧
      (makeDF ⟨[]⟩ = .error .indexError ∧ ∀ t, makeDF ⟨[]⟩ ≠ .ok t) :=
  ⟨rfl, makeDF_empty ⟨[]⟩ rfl⟩

/-- C8: flattening a nonempty response whose records all share the key list of the
first record yields a table whose columns are the first record keys in order,
with one row per record in response order, each row holding that record values
positionally; so N records with K shared keys give N rows and K columns. -/
theorem makeDF_shape (first : List (String × PyVal)) (rest : List (List (String × PyVal)))
    (hkeys : ∀ r ∈ first :: rest, r.map Prod.fst = first.map Prod.fst) :
    ∃ t, makeDF ⟨first :: rest⟩ = .ok t ∧
      t.columns = first.map Prod.fst ∧
      t.rows = (first :: rest).map (fun r => r.map Prod.snd) ∧
      t.rows.length = (first :: rest).length ∧
      t.columns.length = first.length := by
  refine ⟨⟨(List.range ((first :: rest).map (fun r => r.map Prod.snd)).length).map Int.ofNat,
          first.map Prod.fst, (first :: rest).map (fun r => r.map Prod.snd)⟩,
        ?_, rfl, rfl, by simp, by simp⟩
  show pdDataFrame ((first :: rest).map (fun r => r.map Prod.snd)) (first.map Prod.fst) = _
  unfold pdDataFrame
  rw [if_pos]
  rw [List.all_eq_true]
  intro r hr
  obtain ⟨r0, hr0, rfl⟩ := List.mem_map.mp hr
  have hk := hkeys r0 hr0
  have : r0.length = first.length := by
    have := congrArg List.length hk
    simpa using this
  simp [this]

theorem makeDF_shape_witness :
    (∀ r ∈ [[("run_number", PyVal.int 1), ("fill", PyVal.int 7)],
            [("run_number", PyVal.int 2), ("fill", PyVal.int 8)]],
        r.map Prod.fst =
          [("run_number", PyVal.int 1), ("fill", PyVal.int 7)].map Prod.fst) ∧
    (∃ t, makeDF ⟨[[("run_number", PyVal.int 1), ("fill", PyVal.int 7)],
                   [("run_number", PyVal.int 2), ("fill", PyVal.int 8)]]⟩ = .ok t ∧
      t.columns = [("run_number", PyVal.int 1), ("fill", PyVal.int 7)].map Prod.fst ∧
      t.rows = [[("run_number", PyVal.int 1), ("fill", PyVal.int 7)],
                [("run_number", PyVal.int 2), ("fill", PyVal.int 8)]].map
                 (fun r => r.map Prod.snd) ∧
      t.rows.length = [[("run_number", PyVal.int 1), ("fill", PyVal.int 7)],
                       [("run_number", PyVal.int 2), ("fill", PyVal.int 8)]].length ∧
      t.columns.length = [("run_number", PyVal.int 1), ("fill", PyVal.int 7)].length) :=
  ⟨by decide, makeDF_shape [("run_number", PyVal.int 1), ("fill", PyVal.int 7)]
    [[("run_number", PyVal.int 2), ("fill", PyVal.int 8)]] (by decide)⟩

/-- The attribs_level resolution shared by oms_fetch.get_oms_data and
download_oms_data: runs gives limit_entries 5000 and range_limit 5000,
lumisections gives limit_entries 100000 and range_limit 1000, anything else
raises Exception. -/
def levelLimits (attribs_level : String) : Option (Nat × Int) :=
  if attribs_level = "runs" then some (5000, 5000)
  else if attribs_level = "lumisections" then some (100000, 1000)
  else none

/-- Number of parameters of oms_fetch.subdivide_range as written in the source
(src/oms/__init__.py line 194): (oldest_run, newest_run, step) — it is defined
inside the class but has no self parameter. -/
def subdivide_range_paramCount : Nat := 3

/-- The bound method call self.subdivide_range(x, y, z) in get_oms_data: Python
passes the instance plus the three explicit arguments, 1 + 3 positional
arguments in all, to a function accepting at most subdivide_range_paramCount
positional parameters, so the call raises TypeError before the body runs. -/
def method_call_subdivide_range (x y z : Int) : Except PyError (List (Int × Int)) :=
  if 1 + 3 ≤ subdivide_range_paramCount then .ok (subdivide_range x y z)
  else .error .typeError

/-- The empty frame pd.DataFrame(columns=attribs) the sub-range loop starts from. -/
def emptyDF (attribs : List String) : Table := ⟨[], attribs, []⟩

/-- pd.concat([t1, t2]) for frames whose column lists coincide: indices and rows
are appended. The pandas column-alignment behavior for differing column lists is
never exercised on the paths the claims below concern and is modelled as an
error. -/
def pd_concat (t1 t2 : Table) : Except PyError Table :=
  if t1.columns = t2.columns then .ok ⟨t1.index ++ t2.index, t1.columns, t1.rows ++ t2.rows⟩
  else .error .exception

/-- The sub-range loop shared by oms_fetch.get_oms_data and download_oms_data:
for each sub-range a query is built and dispatched (the remote service is the
remote oracle), the response is flattened, dtypes converted and concatenated
onto the accumulating frame; time.sleep(2) has no observable effect here. The
dispatched queries are collected in order alongside the result. -/
def fetchLoop (remote : OmsQuery → OmsJson) (attribs_level : String)
    (limit_entries : Nat) (attribs : List String) (extrafilters : List PyDict) :
    List (Int × Int) → Table → List OmsQuery → List OmsQuery × Except PyError Table
  | [], df, qs => (qs, .ok df)
  | r :: rest, df, qs =>
      match get_oms_json true attribs_level (.pair r.1 r.2) extrafilters [] none
          attribs limit_entries with
      | .error err => (qs, .error err)
      | .ok (q, _) =>
          match makeDF (remote q) with
          | .error err => (qs ++ [q], .error err)
          | .ok chunk =>
              match pd_concat df (convert_dtypes chunk) with
              | .error err => (qs ++ [q], .error err)
              | .ok df2 =>
                  fetchLoop remote attribs_level limit_entries attribs extrafilters
                    rest df2 (qs ++ [q])

/-- The runs argument of oms_fetch.get_oms_data: an int or a tuple of two run
numbers (the docstring marks list support as an unimplemented TO-DO). -/
inductive RunsArg where
  | int (n : Int)
  | pair (a b : Int)
  deriving DecidableEq

/-- Embeds oms_fetch.get_oms_data (src/oms/__init__.py lines 39-101). An int is
first replaced by the pair (n, n); the level is resolved (raising on an
unrecognized level); a range wider than range_limit goes through
self.subdivide_range — whose bound call raises TypeError, see
method_call_subdivide_range — and otherwise a single query is built, dispatched
and flattened, then reset_index runs. The remote oracle stands for the OMS
service; the result pairs the dispatched queries, in order, with the returned
frame or the raised error. The final assignment to self.last_run_query or
self.last_ls_query is modelled separately for get_last_fetch below. -/
def get_oms_data (remote : OmsQuery → OmsJson) (runs0 : RunsArg)
    (attribs_level : String) (attribs : List String) (extrafilters : List PyDict) :
    List OmsQuery × Except PyError Table :=
  let runs : Int × Int :=
    match runs0 with
    | .int n => (n, n)
    | .pair a b => (a, b)
  match levelLimits attribs_level with
  | none => ([], .error .exception)
  | some (limit_entries, range_limit) =>
    if runs.2 - runs.1 > range_limit then
      match method_call_subdivide_range runs.1 runs.2 range_limit with
      | .error err => ([], .error err)
      | .ok run_range_list =>
          match fetchLoop remote attribs_level limit_entries attribs extrafilters
              run_range_list (emptyDF attribs) [] with
          | (qs, .error err) => (qs, .error err)
          | (qs, .ok df) => (qs, .ok (reset_index df))
    else
      match get_oms_json true attribs_level (.pair runs.1 runs.2) extrafilters [] none
          attribs limit_entries with
      | .error err => ([], .error err)
      | .ok (q, _) =>
          match makeDF (remote q) with
          | .error err => ([q], .error err)
          | .ok df => ([q], .ok (reset_index (convert_dtypes df)))

/-- Modelled from the spec: get_oms_data of the absent module
src/oms/get_oms_data.py, the Query Builder called by download_oms_data. The spec
describes one Query Builder shared by both fetchers, and oms_fetch.get_oms_json
duplicates its body (its error and warning texts name get_oms_data.py), so the
missing function is modelled as get_oms_json; the omsapi argument check is the
Bool parameter. -/
abbrev module_get_oms_data := get_oms_json

/-- The runs argument of download_oms_data: an int (unhandled there), a tuple of
two run numbers, or a list (whose branch is broken in the source). -/
inductive DlRunsArg where
  | int (n : Int)
  | tuple (a b : Int)
  | list (l : List Int)
  deriving DecidableEq

/-- Embeds download_oms_data of src/oms/oms_utils.py (lines 33-90). Only a tuple
argument is handled: the level is resolved, a wide range goes through the
module-level subdivide_range (an ordinary call, no arity problem) and the
sub-range loop, a narrow one through a single query; reset_index runs at the
end of the tuple branch. An int matches neither the tuple nor the list branch,
so the final return oms_df reads a never-assigned local and raises
UnboundLocalError. A nonempty list reaches oms_data.append(), a call missing
its required argument, raising TypeError; an empty list skips the loop and
raises UnboundLocalError at the return. -/
def download_oms_data (remote : OmsQuery → OmsJson) (runs : DlRunsArg)
    (attribs_level : String) (attribs : List String) (extrafilters : List PyDict) :
    List OmsQuery × Except PyError Table :=
  match runs with
  | .tuple a b =>
    match levelLimits attribs_level with
    | none => ([], .error .exception)
    | some (limit_entries, range_limit) =>
      if b - a > range_limit then
        match fetchLoop remote attribs_level limit_entries attribs extrafilters
            (subdivide_range a b range_limit) (emptyDF attribs) [] with
        | (qs, .error err) => (qs, .error err)
        | (qs, .ok df) => (qs, .ok (reset_index df))
      else
        match module_get_oms_data true attribs_level (.pair a b) extrafilters [] none
            attribs limit_entries with
        | .error err => ([], .error err)
        | .ok (q, _) =>
            match makeDF (remote q) with
            | .error err => ([q], .error err)
            | .ok df => ([q], .ok (reset_index (convert_dtypes df)))
  | .int _ => ([], .error .unboundLocalError)
  | .list l => if l.isEmpty then ([], .error .unboundLocalError) else ([], .error .typeError)

/-- A concrete stand-in for the remote service, used by the closed witnesses and
counterexamples below: every query is answered with one record. -/
def sampleRemote : OmsQuery → OmsJson :=
  fun _ => ⟨[[("run_number", PyVal.int 1)]]⟩

deriving instance DecidableEq for Except

/-- C2: for every tuple range (s, e) wider than the range limit of a recognized
level, oms_fetch.get_oms_data raises TypeError before dispatching any sub-range
query (the bound call self.subdivide_range(s, e, range_limit) passes four
positional arguments to the three-parameter function defined without self) and
never returns a table: the dispatched-query list is empty and the result is the
error. -/
theorem get_oms_data_wide_range_errors (remote : OmsQuery → OmsJson) (s e : Int)
    (level : String) (attribs : List String) (efs : List PyDict) (lim : Nat) (rl : Int)
    (hlev : levelLimits level = some (lim, rl)) (hgt : e - s > rl) :
    get_oms_data remote (.pair s e) level attribs efs = ([], .error .typeError) := by
  simp only [get_oms_data, hlev]
  rw [if_pos (show (s, e).2 - (s, e).1 > rl from hgt)]
  simp [method_call_subdivide_range, subdivide_range_paramCount]

theorem get_oms_data_wide_range_errors_witness :
    levelLimits "runs" = some (5000, 5000) ∧ (6000 : Int) - 0 > (5000 : Int) ∧
    get_oms_data sampleRemote (.pair 0 6000) "runs" [] [] = ([], .error .typeError) :=
  ⟨by decide, by decide,
   get_oms_data_wide_range_errors sampleRemote 0 6000 "runs" [] [] 5000 5000
     (by decide) (by decide)⟩

/-- C4: for every range (s, e) with e - s at most the range limit of a recognized
level, both fetchers — oms_fetch.get_oms_data and download_oms_data — dispatch
exactly one query, and that query targets the level endpoint with the
run-number filters GE s and LE e (followed by the caller filters), covering
exactly the interval (s, e). -/
theorem single_query_covers (remote : OmsQuery → OmsJson) (s e : Int)
    (level : String) (attribs : List String) (efs : List PyDict) (lim : Nat) (rl : Int)
    (hlev : levelLimits level = some (lim, rl)) (hle : e - s ≤ rl) :
    ∃ q, (get_oms_data remote (.pair s e) level attribs efs).1 = [q] ∧
      (download_oms_data remote (.tuple s e) level attribs efs).1 = [q] ∧
      q.endpoint = level ∧
      q.filters = rangeFilters (RunArg.pair s e) ++ efs := by
  refine ⟨⟨level, rangeFilters (.pair s e) ++ efs, none, attribs, [], (1, lim)⟩,
    ?_, ?_, rfl, rfl⟩
  · simp only [get_oms_data, hlev]
    rw [if_neg (show ¬ (s, e).2 - (s, e).1 > rl from not_lt.mpr hle)]
    rw [get_oms_json_ok]
    cases hm : makeDF (remote ⟨level, rangeFilters (.pair s e) ++ efs, none, attribs,
        [], (1, lim)⟩) <;> simp [hm]
  · simp only [download_oms_data, hlev]
    rw [if_neg (show ¬ e - s > rl from not_lt.mpr hle)]
    rw [show module_get_oms_data = get_oms_json from rfl, get_oms_json_ok]
    cases hm : makeDF (remote ⟨level, rangeFilters (.pair s e) ++ efs, none, attribs,
        [], (1, lim)⟩) <;> simp [hm]

theorem single_query_covers_witness :
    levelLimits "runs" = some (5000, 5000) ∧ (20 : Int) - 10 ≤ (5000 : Int) ∧
    (∃ q, (get_oms_data sampleRemote (.pair 10 20) "runs" [] []).1 = [q] ∧
      (download_oms_data sampleRemote (.tuple 10 20) "runs" [] []).1 = [q] ∧
      q.endpoint = "runs" ∧
      q.filters = rangeFilters (RunArg.pair 10 20) ++ []) :=
  ⟨by decide, by decide,
   single_query_covers sampleRemote 10 20 "runs" [] [] 5000 5000 (by decide) (by decide)⟩

/-- C6 counterexample: passing the single integer 5 to download_oms_data does not
behave as the range (5, 5): the int call dispatches no query and raises
UnboundLocalError (runs is neither tuple nor list, so return oms_df reads an
unassigned local), while the (5, 5) call dispatches a query and returns a table. -/
theorem download_oms_data_int_cex :
    download_oms_data sampleRemote (.int 5) "runs" [] [] =
      ([], .error .unboundLocalError) ∧
    download_oms_data sampleRemote (.int 5) "runs" [] [] ≠
      download_oms_data sampleRemote (.tuple 5 5) "runs" [] [] := by
  decide

/-- C6 (amended): for every single integer n passed to oms_fetch.get_oms_data the
call behaves exactly as if the range (n, n) had been passed — same queries, same
result — for every remote, level, attribute and filter configuration;
download_oms_data has no such int handling and fails on an int argument. -/
theorem get_oms_data_int_eq_pair (remote : OmsQuery → OmsJson) (n : Int)
    (level : String) (attribs : List String) (efs : List PyDict) :
    get_oms_data remote (.int n) level attribs efs =
      get_oms_data remote (.pair n n) level attribs efs := rfl

/-- The instance attribute names every oms_fetch object has right after __init__
(src/oms/__init__.py lines 23-34): self.omsapi, self.last_run_query and
self.last_ls_query. -/
def init_attr_names : List String := ["omsapi", "last_run_query", "last_ls_query"]

/-- The class-level attribute names of oms_fetch (its methods), consulted by
attribute lookup after the instance dict. -/
def class_attr_names : List String :=
  ["get_last_fetch", "get_oms_data", "get_oms_json", "subdivide_range"]

/-- The instance attribute get_oms_data assigns at its end (src/oms/__init__.py
lines 96-99): self.last_run_query for the runs level, self.last_ls_query
otherwise. -/
def get_oms_data_assigned_attr (attribs_level : String) : String :=
  if attribs_level = "runs" then "last_run_query" else "last_ls_query"

/-- The instance attribute sets reachable on an oms_fetch object: the constructor
state, extended by any sequence of get_oms_data calls (get_oms_json and
subdivide_range assign no instance attributes; calls of get_oms_data that raise
assign nothing, so the reachable states are a subset of these). -/
inductive ReachableAttrs : List String → Prop where
  | init : ReachableAttrs init_attr_names
  | fetch (attrs : List String) (attribs_level : String) :
      ReachableAttrs attrs → ReachableAttrs (get_oms_data_assigned_attr attribs_level :: attrs)

/-- Embeds oms_fetch.get_last_fetch (src/oms/__init__.py lines 36-37): it returns
self.last_query; Python attribute lookup consults the instance attributes, then
the class attributes, and raises AttributeError on a miss. The looked-up value
itself is irrelevant here and is modelled as Unit. -/
def get_last_fetch (instance_attrs : List String) : Except PyError Unit :=
  if "last_query" ∈ instance_attrs ∨ "last_query" ∈ class_attr_names then .ok ()
  else .error .attributeError

lemma reachable_no_last_query (attrs : List String) (h : ReachableAttrs attrs) :
    "last_query" ∉ attrs := by
  induction h with
  | init => decide
  | fetch attrs2 level h2 ih =>
    intro hmem
    rcases List.mem_cons.mp hmem with heq | hmem2
    · revert heq
      unfold get_oms_data_assigned_attr
      split
      · decide
      · decide
    · exact ih hmem2

/-- C10: on every reachable oms_fetch instance state — after construction and any
number of get_oms_data calls — get_last_fetch raises AttributeError: it reads
self.last_query, while the constructor and get_oms_data only ever assign
self.omsapi, self.last_run_query and self.last_ls_query. -/
theorem get_last_fetch_attribute_error (attrs : List String) (h : ReachableAttrs attrs) :
    get_last_fetch attrs = .error .attributeError := by
  unfold get_last_fetch
  rw [if_neg]
  rintro (h1 | h2)
  · exact reachable_no_last_query attrs h h1
  · revert h2
    decide

theorem get_last_fetch_attribute_error_witness :
    get_last_fetch init_attr_names = .error .attributeError :=
  get_last_fetch_attribute_error init_attr_names ReachableAttrs.init
